import Mathlib

/-!
Verification of the ARP packet codec, client receive loop, server dispatch
loop and handler mux of the mdlayher/arp repository, via a shallow
embedding of the Go source into Lean.

Conventions of the embedding:
* Go byte slices are `List Nat`, each element intended below 256.
* Go `uint8`/`uint16` arithmetic is `Nat` with explicit `% 256` / `% 65536`
  where the source narrows.
* Go slice expressions that can panic (`b[i:j]` with `j > len(b)`) are
  modelled by `Option`: `none` is a runtime panic.
* In-place mutation of a method receiver (`UnmarshalBinary`) is modelled by
  explicit state passing: the function returns the final receiver value.
-/

namespace Arp

/-- Big-endian 16-bit read at offset `i` (binary.BigEndian.Uint16). The
callers below only use it with `i + 2 ≤ b.length`. -/
def readU16 (b : List Nat) (i : Nat) : Nat :=
  256 * b.getD i 0 + b.getD (i + 1) 0

/-- The two big-endian bytes of a 16-bit value (binary.BigEndian.PutUint16). -/
def u16Bytes (v : Nat) : List Nat :=
  [v / 256 % 256, v % 256]

/-- binary.BigEndian.PutUint16(b[i:i+2], v): fails (Go: panics) when the
slice bounds exceed the buffer. -/
def putUint16At (b : List Nat) (i v : Nat) : Option (List Nat) :=
  if i + 2 ≤ b.length then
    some (b.take i ++ u16Bytes v ++ b.drop (i + 2))
  else
    none

/-- b[i] = v: fails (Go: panics) when `i` is out of bounds. -/
def setAt (b : List Nat) (i v : Nat) : Option (List Nat) :=
  if i < b.length then
    some (b.take i ++ v :: b.drop (i + 1))
  else
    none

/-- copy(b[i:i+n], src): Go's copy writes `min n src.length` bytes and
leaves the rest of the destination untouched; slicing b[i:i+n] panics
(here: `none`) when `i + n` exceeds the buffer length. -/
def goCopy (b : List Nat) (i n : Nat) (src : List Nat) : Option (List Nat) :=
  if i + n ≤ b.length then
    some (b.take i ++ src.take (min n src.length) ++ b.drop (i + min n src.length))
  else
    none

/-- b[i:i+n] for an in-bounds read. -/
def listSlice (b : List Nat) (i n : Nat) : List Nat :=
  (b.drop i).take n

/-- The ARP Packet record (packet.go).  MACLength and IPLength are the
declared uint8 length fields; the four addresses are raw byte strings. -/
structure Packet where
  HardwareType : Nat
  ProtocolType : Nat
  MACLength : Nat
  IPLength : Nat
  Operation : Nat
  SenderMAC : List Nat
  SenderIP : List Nat
  TargetMAC : List Nat
  TargetIP : List Nat
deriving DecidableEq, Repr

/-- The all-zero Packet, i.e. Go's `new(Packet)`. -/
def zeroPacket : Packet :=
  ⟨0, 0, 0, 0, 0, [], [], [], []⟩

/-- Packet.MarshalBinary.  The Go source allocates
`make([]byte, 2+2+1+1+2+4+4+(p.MACLength*2))` — the size expression is
uint8 arithmetic (it wraps modulo 256) and hardcodes two 4-byte protocol
addresses — and then copies each field at sequentially computed offsets,
using `int` offsets `hal := int(p.MACLength)`, `pl := int(p.IPLength)`.
A copy whose slice bounds exceed the allocated buffer is a Go panic,
modelled as `none`. -/
def marshalBinary (p : Packet) : Option (List Nat) := do
  let buf := List.replicate ((2 + 2 + 1 + 1 + 2 + 4 + 4 + 2 * p.MACLength) % 256) 0
  let b1 ← putUint16At buf 0 p.HardwareType
  let b2 ← putUint16At b1 2 p.ProtocolType
  let b3 ← setAt b2 4 (p.MACLength % 256)
  let b4 ← setAt b3 5 (p.IPLength % 256)
  let b5 ← putUint16At b4 6 p.Operation
  let hal := p.MACLength
  let pl := p.IPLength
  let b6 ← goCopy b5 8 hal p.SenderMAC
  let b7 ← goCopy b6 (8 + hal) pl p.SenderIP
  let b8 ← goCopy b7 (8 + hal + pl) hal p.TargetMAC
  let b9 ← goCopy b8 (8 + hal + pl + hal) pl p.TargetIP
  return b9

/-- The single decode error of the codec (io.ErrUnexpectedEOF). -/
inductive DecodeErr where
  | truncated
deriving DecidableEq, Repr

/-- Packet.UnmarshalBinary, with the receiver passed and returned
explicitly: the Go method mutates `p` in place, so the result is the pair
(returned error, final receiver state).  The fixed header is read and
stored into the receiver before the declared-length check, so a truncation
failure after the header leaves the receiver partially updated. -/
def unmarshalBinary (p : Packet) (b : List Nat) : Option DecodeErr × Packet :=
  if b.length < 8 then
    (some .truncated, p)
  else
    let p1 : Packet :=
      { p with
        HardwareType := readU16 b 0
        ProtocolType := readU16 b 2
        MACLength := b.getD 4 0
        IPLength := b.getD 5 0
        Operation := readU16 b 6 }
    let ml := p1.MACLength
    let il := p1.IPLength
    if b.length < 8 + 2 * ml + 2 * il then
      (some .truncated, p1)
    else
      (none,
        { p1 with
          SenderMAC := listSlice b 8 ml
          SenderIP := listSlice b (8 + ml) il
          TargetMAC := listSlice b (8 + ml + il) ml
          TargetIP := listSlice b (8 + ml + il + ml) il })

/-- net.IP.To4 (Go standard library): a 4-byte address is returned as is;
a 16-byte IPv4-in-IPv6 address (ten zero bytes then 0xff, 0xff) is
returned as its last four bytes; anything else yields nil. -/
def goTo4 (ip : List Nat) : Option (List Nat) :=
  if ip.length = 4 then
    some ip
  else if ip.length = 16 ∧ ip.take 12 = [0, 0, 0, 0, 0, 0, 0, 0, 0, 0, 255, 255] then
    some (ip.drop 12)
  else
    none

/-- The two construction errors of NewPacket (ErrInvalidMAC, ErrInvalidIP). -/
inductive NewPacketErr where
  | invalidMAC
  | invalidIP
deriving DecidableEq, Repr

/-- NewPacket (packet.go): validates that both hardware addresses have
length at least 6 and equal lengths, then that both IPs convert with To4;
on success fills HardwareType 1, ProtocolType 0x0800 (IPv4 EtherType),
the two uint8 length fields, and the operand fields (IPs in 4-byte form). -/
def newPacket (op : Nat) (srcMAC srcIP dstMAC dstIP : List Nat) :
    Except NewPacketErr Packet :=
  if srcMAC.length < 6 then
    .error .invalidMAC
  else if dstMAC.length < 6 then
    .error .invalidMAC
  else if srcMAC.length ≠ dstMAC.length then
    .error .invalidMAC
  else
    match goTo4 srcIP with
    | none => .error .invalidIP
    | some s4 =>
      match goTo4 dstIP with
      | none => .error .invalidIP
      | some d4 =>
        .ok
          { HardwareType := 1
            ProtocolType := 2048
            MACLength := srcMAC.length % 256
            IPLength := s4.length % 256
            Operation := op
            SenderMAC := srcMAC
            SenderIP := s4
            TargetMAC := dstMAC
            TargetIP := d4 }

/-- The ARP EtherType (ethernet.EtherTypeARP = 0x0806). -/
def etherTypeARP : Nat := 2054

/-- A decapsulated link-layer frame.  The ethernet.Frame collaborator
(github.com/mdlayher/ethernet) is external to this repository, so frames
are modelled after decapsulation, per the spec's Frame collaborator
contract: destination and source hardware addresses, a protocol-type tag
and the carried payload. -/
structure Frame where
  Destination : List Nat
  Source : List Nat
  EtherType : Nat
  Payload : List Nat
deriving DecidableEq, Repr

/-- The reduced read-only projection of a decoded Packet handed to
handlers (request.go). -/
structure Request where
  Operation : Nat
  SenderMAC : List Nat
  SenderIP : List Nat
  TargetMAC : List Nat
  TargetIP : List Nat
deriving DecidableEq, Repr

/-- The errors parseRequest can surface: a frame decapsulation failure
(propagated from the collaborator), errInvalidARPPacket for a non-ARP
EtherType, or the codec truncation error. -/
inductive ParseErr where
  | frameDecode
  | notARPPacket
  | truncated
deriving DecidableEq, Repr

/-- parseRequest (request.go): decapsulate the frame (a collaborator
failure propagates), reject non-ARP EtherTypes with errInvalidARPPacket,
decode the payload into a fresh Packet (Go: `new(Packet)`), and project
the result into a Request.  The incoming bytes are modelled by the result
of the external decapsulation: `Except.error` is a collaborator failure. -/
def parseRequest (fr : Except Unit Frame) : Except ParseErr Request :=
  match fr with
  | .error _ => .error .frameDecode
  | .ok f =>
    if f.EtherType ≠ etherTypeARP then
      .error .notARPPacket
    else
      match unmarshalBinary zeroPacket f.Payload with
      | (some _, _) => .error .truncated
      | (none, p) => .ok ⟨p.Operation, p.SenderMAC, p.SenderIP, p.TargetMAC, p.TargetIP⟩

/-- A handler (the Handler interface): invoked with the Request, it
performs zero or more sends through the ResponseSender capability bound to
the datagram; the capability is abstracted as the list of byte writes the
handler emits through it. -/
def HandlerFn : Type := Request → List (List Nat)

/-- ServeMux (mux.go): an Operation-indexed routing table.  The Go map
guarded by a sync.RWMutex is modelled as its lookup function; the claims
below are about the sequential lookup/registration contract. -/
structure ServeMux where
  m : Nat → Option HandlerFn

/-- NewServeMux: the empty table. -/
def NewServeMux : ServeMux :=
  ⟨fun _ => none⟩

/-- ServeMux.Handle: registers `h` for `op`, overwriting any earlier
registration for the same operation. -/
def ServeMux.Handle (mux : ServeMux) (op : Nat) (h : HandlerFn) : ServeMux :=
  ⟨fun o => if o = op then some h else mux.m o⟩

/-- ServeMux.ServeARP: looks up the request's Operation; if absent no
handler is invoked (`none`); if present that handler is invoked with the
request (`some` of its writes). -/
def ServeMux.ServeARP (mux : ServeMux) (r : Request) : Option (List (List Nat)) :=
  match mux.m r.Operation with
  | none => none
  | some h => some (h r)

/-- conn.serve (server.go): parse the datagram; any parse failure exits
silently with no writes.  On success the configured Handler is invoked;
the Go source leaves the nil-Handler default commented out
(`// BUG(mdlayher): implement ServeMux type`) and then calls
`handler.ServeARP` — a method call on a nil interface, i.e. a runtime
panic, modelled as `none`. -/
def connServe (handler : Option HandlerFn) (fr : Except Unit Frame) :
    Option (List (List Nat)) :=
  match parseRequest fr with
  | .error _ => some []
  | .ok r =>
    match handler with
    | none => none
    | some h => some (h r)

/-- One event of the server transport's receive stream: a datagram (given
by its decapsulation result), end-of-stream (io.EOF), or another transport
error. -/
inductive ServeEvent where
  | recv (fr : Except Unit Frame)
  | eof
  | fail (e : Nat)

/-- Server.Serve (server.go): repeatedly receive; io.EOF returns nil, any
other transport error is returned; each datagram is handed to conn.serve.
The result is `some (outbound writes, returned error)`, or `none` when a
per-datagram task panics.  The goroutine per datagram is modelled
sequentially; the claims proved below do not depend on interleaving. -/
def serveLoop (handler : Option HandlerFn) : List ServeEvent → Option (List (List Nat) × Option Nat)
  | [] => some ([], none)
  | .eof :: _ => some ([], none)
  | .fail e :: _ => some ([], some e)
  | .recv fr :: rest =>
    match connServe handler fr with
    | none => none
    | some ws =>
      match serveLoop handler rest with
      | none => none
      | some (ws2, r) => some (ws ++ ws2, r)

/-- The ways Client.Request's receive loop can end with an error: a
transport read error, a frame decapsulation error, or a packet decode
error (the loop propagates all three). -/
inductive ClientErr where
  | transport (e : Nat)
  | frameDecode
  | packetDecode
deriving DecidableEq, Repr

/-- The outcome of the client receive loop: a resolved hardware address,
a propagated error, or (model-only) the exhaustion of the event list —
the Go loop would block on the transport at that point. -/
inductive ClientResult where
  | found (mac : List Nat)
  | failed (e : ClientErr)
  | blocked
deriving DecidableEq, Repr

/-- One event of the client transport's receive stream: a read error, or
a frame (given by its decapsulation result). -/
inductive ClientEvent where
  | readErr (e : Nat)
  | frame (fr : Except Unit Frame)

/-- The receive loop of Client.Request (client.go): for each frame,
errors from the read or from either unmarshal propagate; a frame whose
destination is not the local hardware address, or whose EtherType is not
ARP, is skipped; a decoded packet whose Operation is not OperationReply
(2), or whose TargetIP is not the local IP, or whose TargetMAC is not the
local hardware address, is skipped; the first packet passing every filter
resolves to its SenderMAC.  `arp` is the Packet receiver the loop reuses
across iterations (the request packet built before the loop). -/
def clientLoop (localMAC localIP : List Nat) (arp : Packet) :
    List ClientEvent → ClientResult
  | [] => .blocked
  | .readErr e :: _ => .failed (.transport e)
  | .frame (.error _) :: _ => .failed .frameDecode
  | .frame (.ok f) :: rest =>
    if f.Destination ≠ localMAC then
      clientLoop localMAC localIP arp rest
    else if f.EtherType ≠ etherTypeARP then
      clientLoop localMAC localIP arp rest
    else
      match unmarshalBinary arp f.Payload with
      | (some _, _) => .failed .packetDecode
      | (none, p) =>
        if p.Operation ≠ 2 then
          clientLoop localMAC localIP p rest
        else if p.TargetIP ≠ localIP then
          clientLoop localMAC localIP p rest
        else if p.TargetMAC ≠ localMAC then
          clientLoop localMAC localIP p rest
        else
          .found p.SenderMAC

/-- The wire layout claimed by the spec for a marshaled Packet: the fixed
8-byte big-endian header (hardware type, protocol type, the two length
bytes, operation) followed by sender hardware, sender protocol, target
hardware, target protocol addresses. -/
def encodePacket (p : Packet) : List Nat :=
  u16Bytes p.HardwareType ++ u16Bytes p.ProtocolType ++
    [p.MACLength % 256] ++ [p.IPLength % 256] ++ u16Bytes p.Operation ++
    p.SenderMAC ++ p.SenderIP ++ p.TargetMAC ++ p.TargetIP

/-- The length invariant of a well-formed Packet: both hardware addresses
have the declared hardware length and both protocol addresses the declared
protocol length. -/
def wfPacket (p : Packet) : Prop :=
  p.SenderMAC.length = p.MACLength ∧ p.TargetMAC.length = p.MACLength ∧
    p.SenderIP.length = p.IPLength ∧ p.TargetIP.length = p.IPLength

instance (p : Packet) : Decidable (wfPacket p) := by
  unfold wfPacket
  infer_instance

/-- The declared-length-derived total an input buffer must reach for
UnmarshalBinary to succeed: 8 header bytes plus twice each length byte. -/
def neededLen (b : List Nat) : Nat :=
  8 + 2 * b.getD 4 0 + 2 * b.getD 5 0

/-- A well-formed Packet with 120-byte hardware addresses: the marshal
size expression 16 + 2*120 wraps to 0 in uint8 arithmetic. -/
def cexPacket120 : Packet :=
  ⟨1, 2048, 120, 4, 1, List.replicate 120 0, [192, 168, 1, 10],
    List.replicate 120 1, [192, 168, 1, 1]⟩

/-- A well-formed Packet with 130-byte hardware addresses, used to refute
the claimed total marshal length 8 + 2*130 + 2*4. -/
def cexPacket130 : Packet :=
  ⟨1, 2048, 130, 4, 2, List.replicate 130 0, [192, 168, 1, 10],
    List.replicate 130 1, [192, 168, 1, 1]⟩

/-- The 6-byte-hardware-address request Packet of the repository's marshal
tests (ARP request to the ethernet broadcast). -/
def reqPacket6 : Packet :=
  ⟨1, 2048, 6, 4, 1, [0, 0, 0, 0, 0, 0], [192, 168, 1, 10],
    [255, 255, 255, 255, 255, 255], [192, 168, 1, 1]⟩

/-- The well-formed inbound ARP request frame of the repository's server
tests (TestServeOK): ARP EtherType and a decodable request payload with
40 trailing padding bytes. -/
def serveOKFrame : Frame :=
  ⟨[222, 173, 190, 239, 222, 173], [170, 187, 204, 221, 238, 255], 2054,
    [0, 1, 8, 6, 6, 4, 0, 1,
      170, 187, 204, 221, 238, 255, 192, 168, 1, 10,
      222, 173, 190, 239, 222, 173, 192, 168, 1, 1] ++ List.replicate 40 0⟩

/-- A decapsulated frame with a non-ARP EtherType (0x0000) and a blank
payload, as in the repository's server tests. -/
def nonARPFrame : Frame :=
  ⟨[0, 0, 0, 0, 0, 0], [0, 0, 0, 0, 0, 0], 0, List.replicate 42 0⟩

/-- The local hardware address of the client correlation scenario
(de:ad:be:ef:de:ad). -/
def cLocalMAC : List Nat := [222, 173, 190, 239, 222, 173]

/-- The local IPv4 address of the client correlation scenario
(192.168.1.1). -/
def cLocalIP : List Nat := [192, 168, 1, 1]

/-- A reply frame addressed to the local hardware address whose ARP
payload carries the wrong target IP (192.168.1.2): every filter but the
target-IP one passes. -/
def wrongIPFrame : Frame :=
  ⟨cLocalMAC, [170, 187, 204, 221, 238, 255], 2054,
    [0, 1, 8, 6, 6, 4, 0, 2,
      0, 0, 0, 0, 0, 0, 0, 0, 0, 0,
      222, 173, 190, 239, 222, 173, 192, 168, 1, 2]⟩

/-- The matching reply frame of the client correlation scenario: ARP
EtherType, destination and packet target equal to the local addresses,
operation Reply, sender aa:bb:cc:dd:ee:ff at 192.168.1.10. -/
def matchFrame : Frame :=
  ⟨cLocalMAC, [170, 187, 204, 221, 238, 255], 2054,
    [0, 1, 8, 6, 6, 4, 0, 2,
      170, 187, 204, 221, 238, 255, 192, 168, 1, 10,
      222, 173, 190, 239, 222, 173, 192, 168, 1, 1]⟩

/-- The 28-byte wire form of reqPacket6, from the repository's unmarshal
tests. -/
def arpBytes28 : List Nat :=
  [0, 1, 8, 0, 6, 4, 0, 1,
    0, 0, 0, 0, 0, 0, 192, 168, 1, 10,
    255, 255, 255, 255, 255, 255, 192, 168, 1, 1]

/-- A concrete handler: replies with one write carrying the request's
sender hardware address. -/
def replyHandler : HandlerFn :=
  fun r => [r.SenderMAC]

/-- A mux with a handler registered only for OperationReply (2). -/
def muxReplyOnly : ServeMux :=
  NewServeMux.Handle 2 replyHandler

/-- A Request with the Request operation (1). -/
def reqSample : Request :=
  ⟨1, [1], [2], [3], [4]⟩

/-- A Request with the Reply operation (2). -/
def repSample : Request :=
  ⟨2, [170, 187, 204, 221, 238, 255], [192, 168, 1, 10], cLocalMAC, cLocalIP⟩

/-! ### Helper lemmas about sequential buffer writes -/

theorem drop_append_replicate (done : List Nat) (w r' i : Nat) (hi : done.length = i) :
    (done ++ List.replicate (w + r') (0 : Nat)).drop (i + w) = List.replicate r' 0 := by
  rw [List.replicate_add, ← List.append_assoc]
  exact List.drop_left' (by simp [hi])

theorem putUint16At_step (done : List Nat) (r r' i v : Nat)
    (hi : done.length = i) (hr : r = 2 + r') :
    putUint16At (done ++ List.replicate r 0) i v =
      some ((done ++ u16Bytes v) ++ List.replicate r' 0) := by
  subst hr
  unfold putUint16At
  rw [if_pos (by simp [hi]), List.take_left' hi,
    drop_append_replicate done 2 r' i hi, List.append_assoc]

theorem setAt_step (done : List Nat) (r r' i v : Nat)
    (hi : done.length = i) (hr : r = 1 + r') :
    setAt (done ++ List.replicate r 0) i v =
      some ((done ++ [v]) ++ List.replicate r' 0) := by
  subst hr
  unfold setAt
  rw [if_pos (by simp [hi]), List.take_left' hi,
    drop_append_replicate done 1 r' i hi]
  simp [List.append_assoc]

theorem goCopy_step (done src : List Nat) (r r' i n : Nat)
    (hi : done.length = i) (hn : src.length = n) (hr : r = n + r') :
    goCopy (done ++ List.replicate r 0) i n src =
      some ((done ++ src) ++ List.replicate r' 0) := by
  subst hr
  unfold goCopy
  rw [if_pos (by simp [hi])]
  have hmin : min n src.length = n := by omega
  rw [hmin, ← hn, List.take_length, hn, List.take_left' hi,
    drop_append_replicate done n r' i hi, List.append_assoc]

theorem encodePacket_cons (p : Packet) :
    encodePacket p =
      p.HardwareType / 256 % 256 :: p.HardwareType % 256 ::
        p.ProtocolType / 256 % 256 :: p.ProtocolType % 256 ::
        p.MACLength % 256 :: p.IPLength % 256 ::
        p.Operation / 256 % 256 :: p.Operation % 256 ::
        (p.SenderMAC ++ (p.SenderIP ++ (p.TargetMAC ++ p.TargetIP))) := by
  simp [encodePacket, u16Bytes]

/-- Decoding the spec layout of a Packet recovers that Packet exactly,
whatever the prior state of the receiver. -/
theorem unmarshal_encode (q p : Packet)
    (h1 : p.SenderMAC.length = p.MACLength) (h2 : p.SenderIP.length = p.IPLength)
    (h3 : p.TargetMAC.length = p.MACLength) (h4 : p.TargetIP.length = p.IPLength)
    (hM : p.MACLength < 256) (hP : p.IPLength < 256)
    (hHT : p.HardwareType < 65536) (hPT : p.ProtocolType < 65536)
    (hOp : p.Operation < 65536) :
    unmarshalBinary q (encodePacket p) = (none, p) := by
  obtain ⟨HT, PT, M, P, Op, sm, si, tm, ti⟩ := p
  simp only at h1 h2 h3 h4 hM hP hHT hPT hOp
  rw [encodePacket_cons]
  simp only
  have hdrop8 : ∀ (l : List Nat) c0 c1 c2 c3 c4 c5 c6 c7,
      List.drop 8 (c0 :: c1 :: c2 :: c3 :: c4 :: c5 :: c6 :: c7 :: l) = l :=
    fun _ _ _ _ _ _ _ _ _ => rfl
  unfold unmarshalBinary
  simp only [readU16, listSlice, List.getD_cons_succ, List.getD_cons_zero,
    List.length_cons, List.length_append, hdrop8,
    Nat.mod_eq_of_lt hM, Nat.mod_eq_of_lt hP]
  rw [if_neg (by omega), if_neg (by omega)]
  have hsplit : ∀ (l : List Nat) (a b : Nat), l.drop (a + b) = (l.drop a).drop b := by
    intro l a b
    rw [List.drop_drop, Nat.add_comm]
  rw [hsplit _ (8 + M + P) M, hsplit _ (8 + M) P, hsplit _ 8 M]
  simp only [hdrop8]
  rw [List.drop_left' h1, List.drop_left' h2, List.drop_left' h3,
    List.take_left' h1, List.take_left' h2, List.take_left' h3,
    show ti.take P = ti by rw [← h4]; exact List.take_length ti]
  simp only [Prod.mk.injEq, Packet.mk.injEq, and_true, true_and]
  omega

theorem listSlice_append (b e : List Nat) (i n : Nat) (h : i + n ≤ b.length) :
    listSlice (b ++ e) i n = listSlice b i n := by
  unfold listSlice
  rw [List.drop_append_of_le_length (by omega),
    List.take_append_of_le_length (by simp; omega)]

/-- Bytes beyond the declared-length-derived total do not affect the
decode result: UnmarshalBinary reads only within the first
`neededLen b` bytes. -/
theorem unmarshal_append (p : Packet) (b extra : List Nat)
    (h : neededLen b ≤ b.length) :
    unmarshalBinary p (b ++ extra) = unmarshalBinary p b := by
  unfold neededLen at h
  have h8 : 8 ≤ b.length := by omega
  have g : ∀ i : Nat, i < 8 → (b ++ extra).getD i 0 = b.getD i 0 := by
    intro i hi
    exact List.getD_append _ _ _ _ (by omega)
  simp only [unmarshalBinary, readU16, List.length_append,
    g 0 (by omega), g 1 (by omega), g 2 (by omega), g 3 (by omega),
    g 4 (by omega), g 5 (by omega), g 6 (by omega), g 7 (by omega)]
  rw [if_neg (by omega), if_neg (by omega), if_neg (by omega), if_neg (by omega)]
  rw [listSlice_append _ _ _ _ (by omega), listSlice_append _ _ _ _ (by omega),
    listSlice_append _ _ _ _ (by omega), listSlice_append _ _ _ _ (by omega)]

/-- The error component of UnmarshalBinary does not depend on the prior
receiver state. -/
theorem unmarshal_fst_receiver (a a' : Packet) (b : List Nat) :
    (unmarshalBinary a b).1 = (unmarshalBinary a' b).1 := by
  unfold unmarshalBinary
  by_cases h8 : b.length < 8
  · simp [h8]
  · by_cases hn : b.length < 8 + 2 * b[4]?.getD 0 + 2 * b[5]?.getD 0 <;>
      simp [h8, hn]

/-- On success, the decoded Packet does not depend on the prior receiver
state: every field is overwritten. -/
theorem unmarshal_snd_receiver (a a' : Packet) (b : List Nat)
    (h : (unmarshalBinary a b).1 = none) :
    (unmarshalBinary a b).2 = (unmarshalBinary a' b).2 := by
  unfold unmarshalBinary at h ⊢
  by_cases h8 : b.length < 8
  · simp [h8] at h
  · by_cases hn : b.length < 8 + 2 * b[4]?.getD 0 + 2 * b[5]?.getD 0
    · simp [h8, hn] at h
    · simp [h8, hn]

/-- The result of the client receive loop does not depend on the Packet
receiver the loop reuses: every outcome is determined by the local
addresses and the event stream alone. -/
theorem clientLoop_receiver (L I : List Nat) :
    ∀ (evs : List ClientEvent) (a a' : Packet),
      clientLoop L I a evs = clientLoop L I a' evs := by
  intro evs
  induction evs with
  | nil =>
    intro a a'
    rfl
  | cons ev rest ih =>
    intro a a'
    cases ev with
    | readErr e => rfl
    | frame fr =>
      cases fr with
      | error u => rfl
      | ok f =>
        simp only [clientLoop]
        by_cases hd : f.Destination = L
        · by_cases he : f.EtherType = etherTypeARP
          · simp only [hd, he, ne_eq, not_true_eq_false, if_false]
            have hfst := unmarshal_fst_receiver a a' f.Payload
            rcases hu : unmarshalBinary a f.Payload with ⟨e₁, p₁⟩
            rcases hu' : unmarshalBinary a' f.Payload with ⟨e₂, p₂⟩
            rw [hu, hu'] at hfst
            simp only at hfst
            subst hfst
            cases e₁ with
            | some err => rfl
            | none =>
              have hsnd := unmarshal_snd_receiver a a' f.Payload (by rw [hu])
              rw [hu, hu'] at hsnd
              simp only at hsnd
              subst hsnd
              by_cases hop : p₁.Operation = 2
              · by_cases hip : p₁.TargetIP = I
                · by_cases hmac : p₁.TargetMAC = L
                  · simp [hop, hip, hmac]
                  · simp [hop, hip, hmac, ih]
                · simp [hop, hip, ih]
              · simp [hop, ih]
          · simp [hd, he, ih a a']
        · simp [hd, ih a a']

/-- For a well-formed Packet with 4-byte protocol addresses and hardware
length at most 119 (so that the uint8 size expression 16 + 2*length does
not wrap), MarshalBinary succeeds and produces exactly the spec layout. -/
theorem marshal_encode (p : Packet)
    (h1 : p.SenderMAC.length = p.MACLength) (h2 : p.SenderIP.length = p.IPLength)
    (h3 : p.TargetMAC.length = p.MACLength) (h4 : p.TargetIP.length = p.IPLength)
    (hM : p.MACLength ≤ 119) (hP : p.IPLength = 4) :
    marshalBinary p = some (encodePacket p) := by
  have hbuf : (2 + 2 + 1 + 1 + 2 + 4 + 4 + 2 * p.MACLength) % 256 =
      16 + 2 * p.MACLength := by
    omega
  simp only [marshalBinary, hbuf, Option.bind_eq_bind]
  rw [show List.replicate (16 + 2 * p.MACLength) (0 : Nat) =
        [] ++ List.replicate (16 + 2 * p.MACLength) 0 by simp]
  rw [putUint16At_step [] _ (14 + 2 * p.MACLength) 0 p.HardwareType rfl (by omega)]
  simp only [Option.some_bind, List.nil_append]
  rw [putUint16At_step (u16Bytes p.HardwareType) _ (12 + 2 * p.MACLength) 2
    p.ProtocolType (by simp [u16Bytes]) (by omega)]
  simp only [Option.some_bind]
  rw [setAt_step _ _ (11 + 2 * p.MACLength) 4 (p.MACLength % 256)
    (by simp [u16Bytes]) (by omega)]
  simp only [Option.some_bind]
  rw [setAt_step _ _ (10 + 2 * p.MACLength) 5 (p.IPLength % 256)
    (by simp [u16Bytes]) (by omega)]
  simp only [Option.some_bind]
  rw [putUint16At_step _ _ (8 + 2 * p.MACLength) 6 p.Operation
    (by simp [u16Bytes]) (by omega)]
  simp only [Option.some_bind]
  rw [goCopy_step _ p.SenderMAC _ (8 + p.MACLength) 8 p.MACLength
    (by simp [u16Bytes]) h1 (by omega)]
  simp only [Option.some_bind]
  rw [goCopy_step _ p.SenderIP _ (4 + p.MACLength) (8 + p.MACLength) p.IPLength
    (by simp [u16Bytes, h1]; omega) h2 (by omega)]
  simp only [Option.some_bind]
  rw [goCopy_step _ p.TargetMAC _ 4 (8 + p.MACLength + p.IPLength) p.MACLength
    (by simp [u16Bytes, h1, h2]; omega) h3 (by omega)]
  simp only [Option.some_bind]
  rw [goCopy_step _ p.TargetIP _ 0
    (8 + p.MACLength + p.IPLength + p.MACLength) p.IPLength
    (by simp [u16Bytes, h1, h2, h3]; omega) h4 (by omega)]
  simp [encodePacket, List.append_assoc]

/-! ### Claim theorems -/

/-- Claim C1, counterexample: the well-formed Packet with 120-byte
hardware addresses (and, per the spec invariant, 4-byte protocol
addresses) is valid — both address pairs match the declared length
fields — yet MarshalBinary fails (the uint8 buffer-size expression
16 + 2*120 wraps to 0 and the first write panics), so no bytes exist to
unmarshal and the round trip cannot return the Packet. -/
theorem C1_counterexample :
    wfPacket cexPacket120 ∧ marshalBinary cexPacket120 = none := by
  constructor
  · decide
  · decide

/-- Claim C1 (amended): for every valid Packet whose protocol addresses
are 4 bytes (the spec invariant) and whose hardware address length is at
most 119 — which covers both the 6-byte and the 20-byte case — and whose
16-bit header fields are in range, MarshalBinary succeeds and
UnmarshalBinary on the produced bytes returns that Packet field by field,
whatever the receiver's prior state. -/
theorem C1_roundtrip (p q : Packet) (hwf : wfPacket p)
    (hP : p.IPLength = 4) (hM : p.MACLength ≤ 119)
    (hHT : p.HardwareType < 65536) (hPT : p.ProtocolType < 65536)
    (hOp : p.Operation < 65536) :
    ∃ bb, marshalBinary p = some bb ∧ unmarshalBinary q bb = (none, p) := by
  obtain ⟨h1, h3, h2, h4⟩ := hwf
  exact ⟨encodePacket p, marshal_encode p h1 h2 h3 h4 hM hP,
    unmarshal_encode q p h1 h2 h3 h4 (by omega) (by omega) hHT hPT hOp⟩

/-- Claim C1, witness: the round trip at the repository's 6-byte test
packet. -/
theorem C1_roundtrip_witness :
    ∃ bb, marshalBinary reqPacket6 = some bb ∧
      unmarshalBinary zeroPacket bb = (none, reqPacket6) :=
  C1_roundtrip reqPacket6 zeroPacket (by decide) (by decide) (by decide)
    (by decide) (by decide) (by decide)

set_option maxRecDepth 4000 in
/-- Claim C2, counterexample: a well-formed Packet with 130-byte hardware
addresses and 4-byte protocol addresses, for which the claim demands a
successful marshal of total length 8 + 2*130 + 2*4 = 276; the code's
uint8 size expression (16 + 260) mod 256 = 20 instead allocates a 20-byte
buffer and the address copies panic, so MarshalBinary fails. -/
theorem C2_counterexample :
    wfPacket cexPacket130 ∧ marshalBinary cexPacket130 = none := by
  constructor
  · decide
  · decide

/-- Claim C2 (amended): for every well-formed Packet with 4-byte protocol
addresses and hardware address length at most 119, MarshalBinary succeeds
and returns exactly the spec layout — the fixed 8-byte big-endian header
followed by senderHardwareAddr, senderProtocolAddr, targetHardwareAddr,
targetProtocolAddr — of total length
8 + 2*hardwareAddrLength + 2*protocolAddrLength. -/
theorem C2_marshal_layout (p : Packet) (hwf : wfPacket p)
    (hP : p.IPLength = 4) (hM : p.MACLength ≤ 119) :
    marshalBinary p = some (encodePacket p) ∧
      (encodePacket p).length = 8 + 2 * p.MACLength + 2 * p.IPLength := by
  obtain ⟨h1, h3, h2, h4⟩ := hwf
  refine ⟨marshal_encode p h1 h2 h3 h4 hM hP, ?_⟩
  simp [encodePacket, u16Bytes]
  omega

/-- Claim C2, witness: the layout at the repository's 6-byte test packet. -/
theorem C2_marshal_layout_witness :
    marshalBinary reqPacket6 = some (encodePacket reqPacket6) ∧
      (encodePacket reqPacket6).length = 8 + 2 * reqPacket6.MACLength +
        2 * reqPacket6.IPLength :=
  C2_marshal_layout reqPacket6 (by decide) (by decide) (by decide)

/-- Claim C3 (confirmed): UnmarshalBinary fails with the truncation error
exactly when the buffer is shorter than 8 bytes or shorter than the
declared-length-derived total 8 + 2*declaredHardwareLength +
2*declaredProtocolLength; on any buffer at least that long it succeeds,
and appending any trailing bytes leaves the entire result unchanged (all
reads stay within the needed prefix of the buffer). -/
theorem C3_truncation (p : Packet) (b : List Nat) :
    ((unmarshalBinary p b).1 = some .truncated ↔
      b.length < 8 ∨ b.length < neededLen b)
    ∧ (neededLen b ≤ b.length →
        (unmarshalBinary p b).1 = none ∧
          ∀ extra, unmarshalBinary p (b ++ extra) = unmarshalBinary p b) := by
  constructor
  · simp only [unmarshalBinary, neededLen, List.getD_eq_getElem?_getD]
    by_cases h8 : b.length < 8
    · simp [h8]
    · by_cases hn : b.length < 8 + 2 * b[4]?.getD 0 + 2 * b[5]?.getD 0 <;>
        simp [h8, hn]
  · intro hn
    have hn' := hn
    unfold neededLen at hn'
    refine ⟨?_, fun extra => unmarshal_append p b extra hn⟩
    simp only [unmarshalBinary, List.getD_eq_getElem?_getD] at hn' ⊢
    rw [if_neg (by omega), if_neg (by omega)]

/-- Claim C3, witness: a 7-byte buffer and a lying-length 8-byte buffer
are rejected as truncated; the repository's 28-byte test vector decodes,
also with 40 trailing padding bytes. -/
theorem C3_truncation_witness :
    (unmarshalBinary zeroPacket (List.replicate 7 0)).1 = some .truncated
    ∧ (unmarshalBinary zeroPacket [0, 1, 8, 0, 255, 4, 0, 1]).1 = some .truncated
    ∧ (unmarshalBinary zeroPacket arpBytes28).1 = none
    ∧ unmarshalBinary zeroPacket (arpBytes28 ++ List.replicate 40 0) =
        unmarshalBinary zeroPacket arpBytes28 := by
  refine ⟨?_, ?_, ?_, ?_⟩
  · exact (C3_truncation zeroPacket (List.replicate 7 0)).1.mpr (by decide)
  · exact (C3_truncation zeroPacket [0, 1, 8, 0, 255, 4, 0, 1]).1.mpr (by decide)
  · exact ((C3_truncation zeroPacket arpBytes28).2 (by decide)).1
  · exact ((C3_truncation zeroPacket arpBytes28).2 (by decide)).2
      (List.replicate 40 0)

/-- Claim C10 (confirmed): when UnmarshalBinary rejects a buffer of at
least 8 bytes whose declared lengths exceed the remaining payload, the
receiver has already been partially updated: hardware type, protocol
type, the two length fields and the operation are overwritten with the
values read from the buffer, while all four address fields keep their
previous values. -/
theorem C10_partial_update (p : Packet) (b : List Nat)
    (h8 : 8 ≤ b.length) (hn : b.length < neededLen b) :
    unmarshalBinary p b =
      (some .truncated,
        { p with
          HardwareType := readU16 b 0
          ProtocolType := readU16 b 2
          MACLength := b.getD 4 0
          IPLength := b.getD 5 0
          Operation := readU16 b 6 }) := by
  unfold neededLen at hn
  simp only [unmarshalBinary, readU16, List.getD_eq_getElem?_getD] at hn ⊢
  rw [if_neg (by omega), if_pos (by omega)]

/-- Claim C10, witness: a receiver with nonzero address fields keeps them
across a truncation failure on the lying-length buffer while its header
fields are overwritten from the buffer. -/
theorem C10_partial_update_witness :
    unmarshalBinary ⟨7, 7, 7, 7, 7, [9, 9], [8], [7, 7], [6]⟩
        [0, 1, 8, 0, 255, 4, 0, 1] =
      (some .truncated, ⟨1, 2048, 255, 4, 1, [9, 9], [8], [7, 7], [6]⟩) :=
  (C10_partial_update ⟨7, 7, 7, 7, 7, [9, 9], [8], [7, 7], [6]⟩
    [0, 1, 8, 0, 255, 4, 0, 1] (by decide) (by decide)).trans (by decide)

/-- Claim C4 (confirmed): the client receive loop returns the
SenderMAC of the first decoded packet that passes every filter (frame
destination equal to the local hardware address, ARP EtherType, operation
Reply, target IP equal to the local IP, target hardware address equal to
the local hardware address), and a received decodable packet failing any
one of these filters is skipped: the loop continues on the remaining
events rather than returning its sender address or an error. -/
theorem C4_client_filter (L I : List Nat) (arp : Packet) (f : Frame)
    (rest : List ClientEvent) :
    ((unmarshalBinary arp f.Payload).1 = none →
      f.Destination = L → f.EtherType = etherTypeARP →
      (unmarshalBinary arp f.Payload).2.Operation = 2 →
      (unmarshalBinary arp f.Payload).2.TargetIP = I →
      (unmarshalBinary arp f.Payload).2.TargetMAC = L →
      clientLoop L I arp (.frame (.ok f) :: rest) =
        .found (unmarshalBinary arp f.Payload).2.SenderMAC)
    ∧ ((f.Destination ≠ L ∨ f.EtherType ≠ etherTypeARP ∨
        ((unmarshalBinary arp f.Payload).1 = none ∧
          ((unmarshalBinary arp f.Payload).2.Operation ≠ 2 ∨
            (unmarshalBinary arp f.Payload).2.TargetIP ≠ I ∨
            (unmarshalBinary arp f.Payload).2.TargetMAC ≠ L))) →
      clientLoop L I arp (.frame (.ok f) :: rest) = clientLoop L I arp rest) := by
  constructor
  · intro hu hd he hop hip hmac
    simp only [clientLoop, hd, he, ne_eq, not_true_eq_false, if_false]
    rcases hq : unmarshalBinary arp f.Payload with ⟨e, p⟩
    rw [hq] at hu hop hip hmac
    simp only at hu hop hip hmac
    subst hu
    simp [hop, hip, hmac]
  · intro hcase
    rcases hcase with hd | he | ⟨hu, hfil⟩
    · simp [clientLoop, hd]
    · by_cases hd : f.Destination = L
      · simp [clientLoop, hd, he]
      · simp [clientLoop, hd]
    · by_cases hd : f.Destination = L
      · by_cases he : f.EtherType = etherTypeARP
        · simp only [clientLoop, hd, he, ne_eq, not_true_eq_false, if_false]
          rcases hq : unmarshalBinary arp f.Payload with ⟨e, p⟩
          rw [hq] at hu hfil
          simp only at hu hfil
          subst hu
          have hrec := clientLoop_receiver L I rest p arp
          rcases hfil with hop | hip | hmac
          · simp [hop, hrec]
          · by_cases hop : p.Operation = 2 <;> simp [hop, hip, hrec]
          · by_cases hop : p.Operation = 2
            · by_cases hip : p.TargetIP = I <;> simp [hop, hip, hmac, hrec]
            · simp [hop, hrec]
        · simp [clientLoop, hd, he]
      · simp [clientLoop, hd]

/-- Claim C4, witness: the spec's correlation scenario — a reply with the
wrong target IP followed by the matching reply — resolves to the matching
reply's sender hardware address aa:bb:cc:dd:ee:ff. -/
theorem C4_client_filter_witness :
    clientLoop cLocalMAC cLocalIP zeroPacket
        [.frame (.ok wrongIPFrame), .frame (.ok matchFrame)] =
      .found [170, 187, 204, 221, 238, 255] := by
  have hskip := (C4_client_filter cLocalMAC cLocalIP zeroPacket wrongIPFrame
    [.frame (.ok matchFrame)]).2
    (Or.inr (Or.inr ⟨by decide, Or.inr (Or.inl (by decide))⟩))
  have hfind := (C4_client_filter cLocalMAC cLocalIP zeroPacket matchFrame []).1
    (by decide) (by decide) (by decide) (by decide) (by decide) (by decide)
  exact hskip.trans (hfind.trans (by decide))

/-- Claim C5 (code_bug): the doc comment of Server.Handler promises that
a nil Handler is replaced by DefaultServeMux, but conn.serve leaves that
replacement commented out behind a BUG note and invokes ServeARP on the
nil Handler interface: handling the well-formed inbound ARP request frame
of the server tests on a Server without a handler is a runtime panic
(`none`), not a completed dispatch. -/
theorem C5_nil_handler_crash :
    connServe none (.ok serveOKFrame) = none := by
  decide

/-- Claim C8 (confirmed): Serve never propagates a per-datagram parse
failure — a datagram whose parse fails (non-ARP EtherType, decapsulation
failure, or truncated payload) contributes no outbound bytes and the loop
continues unchanged; end-of-stream terminates Serve with no error and no
writes; any other transport receive error terminates Serve and is
returned to the caller. -/
theorem C8_serve_drops (h : Option HandlerFn) :
    (∀ (d : Except Unit Frame) (pe : ParseErr) (rest : List ServeEvent),
        parseRequest d = .error pe →
        serveLoop h (.recv d :: rest) = serveLoop h rest)
    ∧ (∀ rest, serveLoop h (.eof :: rest) = some ([], none))
    ∧ (∀ e rest, serveLoop h (.fail e :: rest) = some ([], some e)) := by
  refine ⟨?_, fun _ => rfl, fun _ _ => rfl⟩
  intro d pe rest hp
  simp only [serveLoop, connServe, hp]
  cases hr : serveLoop h rest with
  | none => rfl
  | some x =>
    cases x
    simp

/-- Claim C8, witness: one non-ARP frame followed by end-of-stream yields
zero outbound writes and no error, for a Server with no handler at all. -/
theorem C8_serve_drops_witness :
    serveLoop none [.recv (.ok nonARPFrame), .eof] = some ([], none) :=
  ((C8_serve_drops none).1 (.ok nonARPFrame) .notARPPacket [.eof]
    rfl).trans ((C8_serve_drops none).2.1 [])

/-- Claim C9 (confirmed): dispatching through a ServeMux invokes exactly
the handler registered for the request's operation with that request, an
unregistered operation invokes no handler and returns normally, and
registering a handler for an operation replaces any earlier registration
for the same operation. -/
theorem C9_mux (mux : ServeMux) (r : Request) (h : HandlerFn)
    (op : Nat) (h1 h2 : HandlerFn) (m0 : ServeMux) (o : Nat) :
    (mux.m r.Operation = some h → mux.ServeARP r = some (h r))
    ∧ (mux.m r.Operation = none → mux.ServeARP r = none)
    ∧ ((m0.Handle op h1).Handle op h2).m o = (m0.Handle op h2).m o := by
  refine ⟨?_, ?_, ?_⟩
  · intro hh
    simp [ServeMux.ServeARP, hh]
  · intro hh
    simp [ServeMux.ServeARP, hh]
  · by_cases ho : o = op <;> simp [ServeMux.Handle, ho]

/-- Claim C9, witness: a mux with a handler registered only for Reply (2)
invokes no handler on a Request-operation message and invokes that
handler on a Reply-operation message. -/
theorem C9_mux_witness :
    muxReplyOnly.ServeARP repSample = some (replyHandler repSample)
    ∧ muxReplyOnly.ServeARP reqSample = none := by
  constructor
  · exact (C9_mux muxReplyOnly repSample replyHandler 0 replyHandler
      replyHandler NewServeMux 0).1 rfl
  · exact (C9_mux muxReplyOnly reqSample replyHandler 0 replyHandler
      replyHandler NewServeMux 0).2.1 rfl

/-- Claim C6, counterexample: two hardware addresses of equal positive
length 1, with valid IPv4 sender and target addresses, are rejected with
ErrInvalidMAC — NewPacket requires length at least 6, so not every pair
of equal positive length is accepted. -/
theorem C6_counterexample :
    newPacket 1 [0] [0, 0, 0, 0] [0] [0, 0, 0, 0] = .error .invalidMAC
    ∧ ¬∃ p, newPacket 1 [0] [0, 0, 0, 0] [0] [0, 0, 0, 0] = .ok p := by
  constructor
  · rfl
  · rintro ⟨p, hp⟩
    rw [show newPacket 1 [0] [0, 0, 0, 0] [0] [0, 0, 0, 0] =
      .error .invalidMAC from rfl] at hp
    exact Except.noConfusion hp

/-- Claim C6 (amended): NewPacket fails with ErrInvalidMAC exactly when
either hardware address is shorter than 6 bytes or the two differ in
length; every pair of hardware addresses of equal length at least 6
(given IPv4-convertible sender and target addresses) is accepted. -/
theorem C6_hw_validation (op : Nat) (sm si dm di : List Nat) :
    (newPacket op sm si dm di = .error .invalidMAC ↔
      sm.length < 6 ∨ dm.length < 6 ∨ sm.length ≠ dm.length)
    ∧ (6 ≤ sm.length → sm.length = dm.length →
        (goTo4 si).isSome → (goTo4 di).isSome →
        ∃ p, newPacket op sm si dm di = .ok p) := by
  constructor
  · unfold newPacket
    by_cases hs : sm.length < 6
    · simp [hs]
    · by_cases hd : dm.length < 6
      · simp [hs, hd]
      · by_cases hm : sm.length ≠ dm.length
        · simp [hs, hd, hm]
        · rcases hsi : goTo4 si with _ | s4
          · simp [hs, hd, hm, hsi]
          · rcases hdi : goTo4 di with _ | d4 <;> simp [hs, hd, hm, hsi, hdi]
  · intro h6 hlen hsi hdi
    rcases Option.isSome_iff_exists.mp hsi with ⟨s4, hs4⟩
    rcases Option.isSome_iff_exists.mp hdi with ⟨d4, hd4⟩
    have hgoal : newPacket op sm si dm di =
        .ok ⟨1, 2048, sm.length % 256, s4.length % 256, op, sm, s4, dm, d4⟩ := by
      unfold newPacket
      rw [if_neg (by omega), if_neg (by omega), if_neg (by simp [hlen]), hs4, hd4]
    exact ⟨_, hgoal⟩

/-- Claim C6, witness: 20-byte InfiniBand-length hardware addresses of
equal length are not rejected with ErrInvalidMAC and are accepted. -/
theorem C6_hw_validation_witness :
    ¬(newPacket 1 (List.replicate 20 0) [0, 0, 0, 0] (List.replicate 20 1)
        [0, 0, 0, 0] = .error .invalidMAC)
    ∧ ∃ p, newPacket 1 (List.replicate 20 0) [0, 0, 0, 0] (List.replicate 20 1)
        [0, 0, 0, 0] = .ok p := by
  constructor
  · intro hc
    have := (C6_hw_validation 1 (List.replicate 20 0) [0, 0, 0, 0]
      (List.replicate 20 1) [0, 0, 0, 0]).1.mp hc
    revert this
    decide
  · exact (C6_hw_validation 1 (List.replicate 20 0) [0, 0, 0, 0]
      (List.replicate 20 1) [0, 0, 0, 0]).2 (by decide) (by decide)
      (by decide) (by decide)

/-- Claim C7, counterexample: with a 5-byte source hardware address and an
invalid (16-byte IPv6 all-zero) source IP, NewPacket fails with
ErrInvalidMAC, not ErrInvalidIP — hardware validation runs before IP
validation, so an invalid IP does not always produce ErrInvalidIP. -/
theorem C7_counterexample :
    goTo4 (List.replicate 16 0) = none
    ∧ newPacket 1 (List.replicate 5 0) (List.replicate 16 0)
        (List.replicate 6 0) [0, 0, 0, 0] = .error .invalidMAC := by
  constructor
  · decide
  · rfl

/-- Claim C7 (amended): once both hardware addresses pass validation
(each at least 6 bytes and of equal length), NewPacket fails
with ErrInvalidIP exactly when either supplied IP address does not
convert to a 4-byte IPv4 value — in particular any IPv6-shaped or
malformed address in either IP slot is rejected with ErrInvalidIP. -/
theorem C7_ip_validation (op : Nat) (sm si dm di : List Nat)
    (h6s : 6 ≤ sm.length) (h6d : 6 ≤ dm.length) (hlen : sm.length = dm.length) :
    newPacket op sm si dm di = .error .invalidIP ↔
      goTo4 si = none ∨ goTo4 di = none := by
  unfold newPacket
  rw [if_neg (by omega), if_neg (by omega), if_neg (by simp [hlen])]
  rcases hsi : goTo4 si with _ | s4
  · simp
  · rcases hdi : goTo4 di with _ | d4 <;> simp

/-- Claim C7, witness: a 16-byte IPv6 zero address in the sender IP slot,
with valid 6-byte hardware addresses, fails with ErrInvalidIP. -/
theorem C7_ip_validation_witness :
    newPacket 1 [0, 0, 0, 0, 0, 0] (List.replicate 16 0) [0, 0, 0, 0, 0, 0]
        [0, 0, 0, 0] = .error .invalidIP :=
  (C7_ip_validation 1 [0, 0, 0, 0, 0, 0] (List.replicate 16 0)
    [0, 0, 0, 0, 0, 0] [0, 0, 0, 0] (by decide) (by decide) (by decide)).mpr
    (Or.inl (by decide))

end Arp
